import Mathlib

/-!
Verification of the in-memory indexing and query engine of the OWASP ASVS
MCP server (`src/index.ts`).  The TypeScript source is shallowly embedded:
JS `Map`s become association lists with insertion-order semantics, JS `Set`s
become duplicate-free lists in insertion order, JS numbers used by the
pagination helper become rationals (`Math.trunc` is modelled exactly for
finite values; NaN/Infinity are outside the model), and fallible operations
return `Except String` where the source returns `createErrorResponse`.
-/

/-! ## JS string primitives -/

/-- ASCII lowering of a single character, the fragment of JS
`String.prototype.toLowerCase` exercised by the dataset. -/
def asciiLower (c : Char) : Char :=
  if 'A' ≤ c ∧ c ≤ 'Z' then Char.ofNat (c.toNat + 32) else c

/-- JS `toLowerCase` on a string (ASCII model). -/
def strLower (s : String) : String :=
  String.mk (s.data.map asciiLower)

/-- Does the first character list start with the second one?  Helper for the
substring test used by JS `String.prototype.includes`. -/
def listStartsWith : List Char → List Char → Bool
  | [], _ => true
  | _ :: _, [] => false
  | a :: as, b :: bs => a = b && listStartsWith as bs

/-- Does `hay` contain `needle` as a contiguous sublist? -/
def listContainsSub (needle hay : List Char) : Bool :=
  match hay with
  | [] => listStartsWith needle []
  | _ :: t => listStartsWith needle hay || listContainsSub needle t

/-- JS `hay.includes(needle)` for strings. -/
def strContains (hay needle : String) : Bool :=
  listContainsSub needle.data hay.data

/-- A single-quote character as a string, used to rebuild the exact error
message texts of the source. -/
def squote : String := String.mk [Char.ofNat 39]

/-- JS word characters, the `\w` class of the `\W+` split in `tokenize`. -/
def isWordChar (c : Char) : Bool :=
  ('a' ≤ c ∧ c ≤ 'z') ∨ ('A' ≤ c ∧ c ≤ 'Z') ∨ ('0' ≤ c ∧ c ≤ '9') ∨ c = '_'

/-- Maximal runs of word characters of a character list, in order; the
(filtered-out anyway) empty fragments produced by JS `split(/\W+/)` at the
string borders are dropped. -/
def wordRunsAux : List Char → List Char → List String
  | [], cur => if cur.isEmpty then [] else [String.mk cur.reverse]
  | c :: rest, cur =>
    if isWordChar c then wordRunsAux rest (c :: cur)
    else if cur.isEmpty then wordRunsAux rest []
    else String.mk cur.reverse :: wordRunsAux rest []

/-- `split(/\W+/)` restricted to its non-empty fragments. -/
def wordRuns (s : String) : List String :=
  wordRunsAux s.data []

/-! ## JS `Map` and `Set` as insertion-ordered association lists -/

/-- JS `Map.prototype.get`. -/
def mapGet {α : Type} (m : List (String × α)) (k : String) : Option α :=
  match m with
  | [] => none
  | p :: t => if p.fst = k then some p.snd else mapGet t k

/-- JS `Map.prototype.set`: update in place when the key exists, otherwise
append, preserving iteration (insertion) order.  (A JS `Map` never holds a
key twice, so replacing the first occurrence is exact.) -/
def mapSet {α : Type} (m : List (String × α)) (k : String) (v : α) :
    List (String × α) :=
  match m with
  | [] => [(k, v)]
  | p :: t => if p.fst = k then (k, v) :: t else p :: mapSet t k v

/-- JS `Set.prototype.add` on a duplicate-free list in insertion order. -/
def setAdd (s : List String) (x : String) : List String :=
  if x ∈ s then s else s ++ [x]

/-- `new Set(list)`: deduplicate keeping first occurrences. -/
def setOfList (l : List String) : List String :=
  l.foldl setAdd []

/-! ## Data model (`ASVSRequirement`, `ASVSCategory`) -/

/-- One ASVS verification rule, as in the `ASVSRequirement` interface.  The
optional `compliance` record of framework keys to reference lists is modelled
as an association list; an absent framework is an absent key. -/
structure ASVSRequirement where
  id : String
  category : String
  subcategory : String
  description : String
  level : List Int
  cwe : List String
  nist : List String
  compliance : List (String × List String)
  deriving DecidableEq, Repr

/-- A named grouping of requirements, as in the `ASVSCategory` interface. -/
structure ASVSCategory where
  id : String
  name : String
  requirements : List ASVSRequirement
  deriving DecidableEq, Repr

/-- `FRAMEWORK_MAP`: framework key to display name. -/
def FRAMEWORK_MAP : List (String × String) :=
  [("pci_dss", "PCI DSS"), ("hipaa", "HIPAA"), ("gdpr", "GDPR"),
   ("sox", "SOX"), ("iso27001", "ISO 27001")]

/-- `GENERAL_HIGH_PRIORITY_CATEGORIES`. -/
def GENERAL_HIGH_PRIORITY_CATEGORIES : List String :=
  ["Authentication", "Access Control", "Session Management",
   "Validation, Sanitization and Encoding"]

/-- `COMPLIANCE_HIGH_PRIORITY_CATEGORIES`. -/
def COMPLIANCE_HIGH_PRIORITY_CATEGORIES : List String :=
  ["Authentication", "Access Control", "Data Protection", "Communication"]

/-- Security constant `MAX_QUERY_LENGTH` (GENEROUS tier). -/
def MAX_QUERY_LENGTH : Nat := 5000

/-- Security constant `MAX_CATEGORY_LENGTH` (GENEROUS tier). -/
def MAX_CATEGORY_LENGTH : Nat := 1000

/-- Security constant `MAX_ID_LENGTH` (GENEROUS tier). -/
def MAX_ID_LENGTH : Nat := 200

/-- Security constant `MAX_TOKENIZE_LENGTH` (GENEROUS tier). -/
def MAX_TOKENIZE_LENGTH : Nat := 50000

/-! ## Tokenizer -/

/-- `tokenize`: truncate to `MAX_TOKENIZE_LENGTH`, lowercase, split on
non-word-character runs, keep tokens of length strictly between 2 and 100. -/
def tokenize (text : String) : List String :=
  let safeText := String.mk (text.data.take MAX_TOKENIZE_LENGTH)
  (wordRuns (strLower safeText)).filter (fun t => 2 < t.length ∧ t.length < 100)

/-! ## Index builders -/

/-- `buildRequirementIndex`: id → (requirement, owning category), built with
`Map.set`, so a duplicate id silently overwrites the earlier entry. -/
def buildRequirementIndex (asvsData : List ASVSCategory) :
    List (String × (ASVSRequirement × ASVSCategory)) :=
  asvsData.foldl
    (fun idx category =>
      category.requirements.foldl
        (fun idx req => mapSet idx req.id (req, category)) idx)
    []

/-- `buildCategoryIndex`: two keys per category, the lowercased name and the
lowercased id. -/
def buildCategoryIndex (asvsData : List ASVSCategory) :
    List (String × ASVSCategory) :=
  asvsData.foldl
    (fun idx category =>
      mapSet (mapSet idx (strLower category.name) category)
        (strLower category.id) category)
    []

/-- The token set (`new Set([...])`) indexed for one requirement:
description, category, id and each CWE reference, deduplicated. -/
def reqTokens (req : ASVSRequirement) : List String :=
  setOfList (tokenize req.description ++ tokenize req.category ++
    tokenize req.id ++ req.cwe.foldr (fun c acc => tokenize c ++ acc) [])

/-- Insertion of one token occurrence into the search index: create the key
when absent, then add the requirement id to its set.  The source performs
this unconditionally, with no entry counter and no cap check. -/
def insertToken (idx : List (String × List String)) (tok rid : String) :
    List (String × List String) :=
  match mapGet idx tok with
  | some s => mapSet idx tok (setAdd s rid)
  | none => idx ++ [(tok, [rid])]

/-- `buildSearchIndex`: for every requirement, insert every one of its tokens.
The source never consults any `MAX_CACHE_ENTRIES` bound here. -/
def buildSearchIndex (asvsData : List ASVSCategory) :
    List (String × List String) :=
  asvsData.foldl
    (fun idx category =>
      category.requirements.foldl
        (fun idx req => (reqTokens req).foldl
          (fun idx tok => insertToken idx tok req.id) idx)
        idx)
    []

/-- The prebuilt state the query operations read: the dataset plus the three
indexes of `buildIndexes`. -/
structure ServerState where
  asvsData : List ASVSCategory
  requirementIndex : List (String × (ASVSRequirement × ASVSCategory))
  categoryIndex : List (String × ASVSCategory)
  searchIndex : List (String × List String)
  deriving DecidableEq

/-- Dataset load followed by `buildIndexes`. -/
def mkServer (asvsData : List ASVSCategory) : ServerState :=
  { asvsData := asvsData
    requirementIndex := buildRequirementIndex asvsData
    categoryIndex := buildCategoryIndex asvsData
    searchIndex := buildSearchIndex asvsData }

/-! ## Pagination helper

JS numbers are modelled as rationals; `Math.trunc`-style conversion and the
ECMAScript `Array.prototype.slice` index arithmetic are reproduced exactly
for finite values. -/

/-- ECMAScript `ToIntegerOrInfinity` on a finite number: truncation towards
zero. -/
def toIntegerOrInfinity (q : ℚ) : Int :=
  if q < 0 then -(⌊-q⌋) else ⌊q⌋

/-- ECMAScript `Array.prototype.slice(start, fin)`. -/
def jsSlice {α : Type} (l : List α) (start fin : ℚ) : List α :=
  let len : Int := l.length
  let rs := toIntegerOrInfinity start
  let k : Int := if rs < 0 then max (len + rs) 0 else min rs len
  let re := toIntegerOrInfinity fin
  let f : Int := if re < 0 then max (len + re) 0 else min re len
  (l.drop k.toNat).take (f - k).toNat

/-- The pagination metadata record returned next to every windowed list. -/
structure PaginationMeta where
  offset : ℚ
  limit : ℚ
  total : Nat
  returned : Nat
  hasMore : Bool
  deriving DecidableEq, Repr

/-- `applyPagination`: clamp the offset into `[0, items.length]` and the
limit into `[1, 500]`, slice, and report metadata. -/
def applyPagination {α : Type} (items : List α) (offset limit : ℚ) :
    List α × PaginationMeta :=
  let safeOffset : ℚ := max 0 (min offset (items.length : ℚ))
  let safeLimit : ℚ := max 1 (min limit 500)
  let paginatedItems := jsSlice items safeOffset (safeOffset + safeLimit)
  (paginatedItems,
    { offset := safeOffset
      limit := safeLimit
      total := items.length
      returned := paginatedItems.length
      hasMore := decide (safeOffset + (paginatedItems.length : ℚ) <
        (items.length : ℚ)) })

/-! ## Error and success results

The source distinguishes results by the `isError: true` flag of
`createErrorResponse`; the embedding uses `Except`: `Except.error msg`
carries the caller-visible error message text. -/

/-- Is a result a success result? -/
def isSuccess {α : Type} : Except String α → Bool
  | Except.ok _ => true
  | Except.error _ => false

/-! ## Query operations -/

/-- Result payload of `getRequirementsByLevel`. -/
structure ByLevelResult where
  level : String
  pagination : PaginationMeta
  requirements : List ASVSRequirement
  deriving DecidableEq

/-- `getRequirementsByLevel`. -/
def getRequirementsByLevel (st : ServerState) (level : Int)
    (offset limit : Option ℚ) : Except String ByLevelResult :=
  if level ∈ ([1, 2, 3] : List Int) then
    let requirements := st.asvsData.foldl
      (fun acc category =>
        acc ++ category.requirements.filter (fun r => level ∈ r.level)) []
    let paginated := applyPagination requirements (offset.getD 0) (limit.getD 100)
    Except.ok
      { level := "L" ++ toString level
        pagination := paginated.2
        requirements := paginated.1 }
  else
    Except.error ("Invalid level: " ++ toString level ++ ". Must be 1, 2, or 3.")

/-- The caller-visible not-found message of `getRequirementsByCategory`: it
interpolates the full list of available category names into the response. -/
def categoryNotFoundMessage (categoryName : String)
    (asvsData : List ASVSCategory) : String :=
  "Category " ++ squote ++ categoryName ++ squote ++
    " not found. Available categories: " ++
    String.intercalate ", " (asvsData.map ASVSCategory.name)

/-- The category resolution of `getRequirementsByCategory`: exact normalized
index lookup first, then the first index entry (in insertion order) whose key
contains the input or is contained in it. -/
def resolveCategory (st : ServerState) (normalized : String) :
    Option ASVSCategory :=
  match mapGet st.categoryIndex normalized with
  | some category => some category
  | none =>
    (st.categoryIndex.find? (fun p =>
      strContains p.fst normalized || strContains normalized p.fst)).map
      Prod.snd

/-- Result payload of `getRequirementsByCategory`. -/
structure ByCategoryResult where
  category : String
  id : String
  pagination : PaginationMeta
  requirements : List ASVSRequirement
  deriving DecidableEq

/-- `getRequirementsByCategory`.  The `level` filter mirrors the JS
truthiness test `if (level)`: a present-but-zero level applies no filter. -/
def getRequirementsByCategory (st : ServerState) (categoryName : String)
    (level : Option Int) (offset limit : Option ℚ) :
    Except String ByCategoryResult :=
  if MAX_CATEGORY_LENGTH < categoryName.length then
    Except.error "Category name too long (max 1000 characters)"
  else
    let normalized := strLower categoryName
    match resolveCategory st normalized with
    | none => Except.error (categoryNotFoundMessage categoryName st.asvsData)
    | some category =>
      let requirements :=
        match level with
        | some l =>
          if l ≠ 0 then category.requirements.filter (fun r => l ∈ r.level)
          else category.requirements
        | none => category.requirements
      let paginated :=
        applyPagination requirements (offset.getD 0) (limit.getD 100)
      Except.ok
        { category := category.name
          id := category.id
          pagination := paginated.2
          requirements := paginated.1 }

/-- Result payload of `getRequirementDetails`. -/
structure DetailsResult where
  requirement : ASVSRequirement
  category_name : String
  category_id : String
  deriving DecidableEq

/-- `getRequirementDetails`. -/
def getRequirementDetails (st : ServerState) (reqId : String) :
    Except String DetailsResult :=
  if MAX_ID_LENGTH < reqId.length then
    Except.error "Requirement ID too long (max 200 characters)"
  else
    match mapGet st.requirementIndex reqId with
    | some indexed =>
      Except.ok
        { requirement := indexed.1
          category_name := indexed.2.name
          category_id := indexed.2.id }
    | none =>
      Except.error ("Requirement " ++ squote ++ reqId ++ squote ++ " not found.")

/-- `PrioritizedRequirement`. -/
structure PrioritizedRequirement where
  requirement : ASVSRequirement
  priority : String
  minLevel : Int
  deriving DecidableEq

/-- JS `Math.min(...list)` for the non-empty lists it is applied to; the
callers only evaluate it under a membership guard, so the empty case (JS
`Infinity`) is never reached. -/
def listMin : List Int → Int
  | [] => 0
  | a :: t => t.foldl min a

/-- Stable insertion sort, the order contract of ES2019 `Array.sort`. -/
def insertLe {α : Type} (le : α → α → Bool) (a : α) : List α → List α
  | [] => [a]
  | b :: t => if le a b then a :: b :: t else b :: insertLe le a t

/-- Stable sort by a boolean comparison. -/
def sortLe {α : Type} (le : α → α → Bool) : List α → List α
  | [] => []
  | a :: t => insertLe le a (sortLe le t)

/-- The comparator of `recommendPriorityControls`: HIGH before MEDIUM, then
ascending cached `minLevel`. -/
def recommendBefore (a b : PrioritizedRequirement) : Bool :=
  if a.priority ≠ b.priority then a.priority = "HIGH"
  else a.minLevel ≤ b.minLevel

/-- Result payload of `recommendPriorityControls`. -/
structure RecommendResult where
  target_level : String
  current_level : String
  application_type : Option String
  focus_areas : List String
  pagination : PaginationMeta
  recommendations : List (ASVSRequirement × String)
  deriving DecidableEq

/-- `recommendPriorityControls`.  Note: the source performs no validation of
`target_level`; every call returns a success result. -/
def recommendPriorityControls (st : ServerState) (target_level : Int)
    (current_level : Option Int) (focus_areas : Option (List String))
    (application_type : Option String) (offset limit : Option ℚ) :
    Except String RecommendResult :=
  let currentLevel := current_level.getD 0
  let focusAreas := focus_areas.getD []
  let recommendations := st.asvsData.foldl
    (fun acc category =>
      let isHighPriority := GENERAL_HIGH_PRIORITY_CATEGORIES.any
        (fun hpc => strContains category.name hpc)
      let isFocusArea := focusAreas.isEmpty || focusAreas.any
        (fun fa => strContains (strLower category.name) (strLower fa))
      if !isFocusArea && 0 < focusAreas.length then acc
      else
        category.requirements.foldl
          (fun acc req =>
            if target_level ∈ req.level then
              let minLevel := listMin req.level
              if currentLevel < minLevel then
                acc ++ [{ requirement := req
                          priority := if isHighPriority then "HIGH" else "MEDIUM"
                          minLevel := minLevel }]
              else acc
            else acc)
          acc)
    []
  let sorted := sortLe recommendBefore recommendations
  let recommendationsWithPriority := sorted.map
    (fun r => (r.requirement, r.priority))
  let paginated := applyPagination recommendationsWithPriority
    (offset.getD 0) (limit.getD 50)
  Except.ok
    { target_level := "L" ++ toString target_level
      current_level := "L" ++ toString currentLevel
      application_type := application_type
      focus_areas := focusAreas
      pagination := paginated.2
      recommendations := paginated.1 }

/-! ## Gap scorer and gap analysis -/

/-- `criticalCompliancePatterns` of `calculateGapPriority`. -/
def criticalCompliancePatterns : List (String × List String) :=
  [("pci_dss", ["3.2", "3.4", "4.1", "8.2"]),
   ("hipaa", ["164.312(a)(1)", "164.312(e)(1)", "164.308(a)(4)"]),
   ("gdpr", ["Article 32"]),
   ("sox", ["IT General Controls"]),
   ("iso27001", ["A.9.4", "A.10.1", "A.13.1"])]

/-- `isCriticalCompliance`: some reference of the requirement for the
framework contains one of that framework patterns as a substring. -/
def isCriticalCompliance (req : ASVSRequirement) (framework : String) : Bool :=
  ((mapGet criticalCompliancePatterns framework).getD []).any
    (fun pattern =>
      ((mapGet req.compliance framework).getD []).any
        (fun ref => strContains ref pattern))

/-- `isHighPriorityCategory`: the requirement category string contains one of
the `COMPLIANCE_HIGH_PRIORITY_CATEGORIES` as a substring. -/
def isHighPriorityCategory (req : ASVSRequirement) : Bool :=
  COMPLIANCE_HIGH_PRIORITY_CATEGORIES.any
    (fun cat => strContains req.category cat)

/-- `calculateGapPriority`. -/
def calculateGapPriority (req : ASVSRequirement) (framework : String) :
    String :=
  if isCriticalCompliance req framework ||
      (isHighPriorityCategory req && (1 : Int) ∈ req.level) then "HIGH"
  else if isHighPriorityCategory req || (2 : Int) ∈ req.level then "MEDIUM"
  else "LOW"

/-- One entry of a framework gap list. -/
structure GapEntry where
  requirement_id : String
  category : String
  description : String
  compliance_references : List String
  priority : String
  deriving DecidableEq

/-- The per-framework counters of the gap analysis. -/
structure CoverageCounters where
  total : Nat
  implemented : Nat
  missing : Nat
  deriving DecidableEq

/-- One entry of `coverage_summary`. -/
structure CoverageEntry where
  framework : String
  framework_key : String
  total_requirements : Nat
  implemented : Nat
  missing : Nat
  coverage_percentage : Int
  deriving DecidableEq

/-- JS `Math.round` on a finite number: half rounds towards positive
infinity. -/
def jsRound (q : ℚ) : Int := ⌊q + 1 / 2⌋

/-- The gap-analysis accumulation state: the `gaps` record and the
`coverage` record, both keyed by framework. -/
structure GapState where
  gaps : List (String × List GapEntry)
  coverage : List (String × CoverageCounters)
  deriving DecidableEq

/-- Processing of one framework for one in-scope requirement inside the gap
analysis loop.  The `getD` defaults are unreachable: every requested
framework key is initialized before the loop. -/
def gapStep (implemented : List String) (req : ASVSRequirement)
    (st : GapState) (framework : String) : GapState :=
  match mapGet req.compliance framework with
  | some complianceRefs =>
    if complianceRefs.length > 0 then
      let cov := (mapGet st.coverage framework).getD ⟨0, 0, 0⟩
      if req.id ∈ implemented then
        let cov2 : CoverageCounters :=
          ⟨cov.total + 1, cov.implemented + 1, cov.missing⟩
        { st with coverage := mapSet st.coverage framework cov2 }
      else
        let cov2 : CoverageCounters :=
          ⟨cov.total + 1, cov.implemented, cov.missing + 1⟩
        let entry : GapEntry :=
          { requirement_id := req.id
            category := req.category
            description := req.description
            compliance_references := complianceRefs
            priority := calculateGapPriority req framework }
        { gaps := mapSet st.gaps framework
            ((mapGet st.gaps framework).getD [] ++ [entry])
          coverage := mapSet st.coverage framework cov2 }
    else st
  | none => st

/-- Priority rank used to sort each framework gap list. -/
def priorityOrder (p : String) : Nat :=
  if p = "HIGH" then 0 else if p = "MEDIUM" then 1 else 2

/-- Result payload of `getComplianceGapAnalysis`. -/
structure GapAnalysisResult where
  target_level : String
  frameworks_analyzed : List String
  coverage_summary : List CoverageEntry
  gaps : List (String × List GapEntry)
  deriving DecidableEq

/-- The payload computed by `getComplianceGapAnalysis` (the function body
up to its single, unconditional `createTextResponse`). -/
def complianceGapAnalysis (st : ServerState) (frameworks : List String)
    (target_level : Int) (implemented_requirements : Option (List String)) :
    GapAnalysisResult :=
  let implemented := implemented_requirements.getD []
  let init : GapState :=
    frameworks.foldl
      (fun s framework =>
        { gaps := mapSet s.gaps framework []
          coverage := mapSet s.coverage framework ⟨0, 0, 0⟩ })
      ⟨[], []⟩
  let processed : GapState :=
    st.asvsData.foldl
      (fun s category =>
        category.requirements.foldl
          (fun s req =>
            if target_level ∈ req.level then
              frameworks.foldl (gapStep implemented req) s
            else s)
          s)
      init
  let sortedGaps :=
    frameworks.foldl
      (fun g framework =>
        mapSet g framework
          (sortLe (fun a b => priorityOrder a.priority ≤ priorityOrder b.priority)
            ((mapGet g framework).getD [])))
      processed.gaps
  { target_level := "L" ++ toString target_level
    frameworks_analyzed := frameworks.map
      (fun f => (mapGet FRAMEWORK_MAP f).getD f)
    coverage_summary := processed.coverage.map
      (fun p =>
        { framework := (mapGet FRAMEWORK_MAP p.fst).getD p.fst
          framework_key := p.fst
          total_requirements := p.snd.total
          implemented := p.snd.implemented
          missing := p.snd.missing
          coverage_percentage :=
            if 0 < p.snd.total then
              jsRound ((p.snd.implemented : ℚ) / (p.snd.total : ℚ) * 100)
            else 0 })
    gaps := sortedGaps }

/-- `getComplianceGapAnalysis`.  Note: the source performs no validation of
`target_level` or `frameworks`; every call returns a success result. -/
def getComplianceGapAnalysis (st : ServerState) (frameworks : List String)
    (target_level : Int) (implemented_requirements : Option (List String)) :
    Except String GapAnalysisResult :=
  Except.ok (complianceGapAnalysis st frameworks target_level
    implemented_requirements)

/-- Result payload of `mapRequirementToCompliance`. -/
structure MapToComplianceResult where
  requirement_id : String
  requirement_category : String
  requirement_description : String
  requirement_level : List String
  compliance_mappings : List (String × List String)
  total_framework_mappings : Nat
  total_control_references : Nat
  compliance_impact : String
  deriving DecidableEq

/-- `mapRequirementToCompliance`.  The mapping record is keyed by the
`FRAMEWORK_MAP` display name of each framework with non-empty references. -/
def mapRequirementToCompliance (st : ServerState) (reqId : String) :
    Except String MapToComplianceResult :=
  if MAX_ID_LENGTH < reqId.length then
    Except.error "Requirement ID too long (max 200 characters)"
  else
    match mapGet st.requirementIndex reqId with
    | none =>
      Except.error ("Requirement " ++ squote ++ reqId ++ squote ++ " not found.")
    | some indexed =>
      let req := indexed.1
      let folded := req.compliance.foldl
        (fun (acc : List (String × List String) × Nat) p =>
          if p.snd.length > 0 then
            (mapSet acc.1 ((mapGet FRAMEWORK_MAP p.fst).getD p.fst) p.snd,
             acc.2 + p.snd.length)
          else acc)
        ([], 0)
      Except.ok
        { requirement_id := req.id
          requirement_category := req.category
          requirement_description := req.description
          requirement_level := req.level.map (fun l => "L" ++ toString l)
          compliance_mappings := folded.1
          total_framework_mappings := folded.1.length
          total_control_references := folded.2
          compliance_impact :=
            if 0 < folded.2 then
              "Implementing this requirement helps satisfy multiple compliance frameworks"
            else "No direct compliance mappings identified" }

/-! ## Data parser (`parseASVSData`, `extractLevels`)

The raw JSON items are modelled with the exact optional fields the parser
reads, in both supported input formats (capitalized ASVS 4.0.3 keys and
lowercase ASVS 5.0 keys). -/

/-- The `{ Required: ... }` sub-object of an ASVS 4.0.3 level flag. -/
structure RawLevelObj where
  Required : Option Bool
  deriving DecidableEq

/-- One raw requirement item. -/
structure RawItem where
  Shortcode : Option String
  shortcode : Option String
  id : Option String
  req_id : Option String
  Description : Option String
  description : Option String
  requirement : Option String
  L1 : Option RawLevelObj
  L2 : Option RawLevelObj
  L3 : Option RawLevelObj
  level_1 : Option Bool
  level_2 : Option Bool
  level_3 : Option Bool
  CWE : Option (List String)
  cwe : Option (List String)
  NIST : Option (List String)
  nist : Option (List String)
  deriving DecidableEq

/-- One raw section. -/
structure RawSection where
  Name : Option String
  name : Option String
  Items : Option (List RawItem)
  items : Option (List RawItem)
  deriving DecidableEq

/-- One raw category. -/
structure RawCategory where
  Name : Option String
  name : Option String
  title : Option String
  Shortcode : Option String
  shortcode : Option String
  chapter : Option String
  Items : Option (List RawSection)
  items : Option (List RawSection)
  deriving DecidableEq

/-- The raw top-level document. -/
structure RawData where
  Requirements : Option (List RawCategory)
  requirements : Option (List RawCategory)
  deriving DecidableEq

/-- The official CWE and NIST mapping tables loaded by `loadMappings`. -/
structure OfficialMappings where
  cwe : List (String × String)
  nist : List (String × List String)
  deriving DecidableEq

/-- JS `a || b` for strings: an absent or empty string falls through. -/
def jsOrStr (o : Option String) (d : String) : String :=
  match o with
  | some s => if s = "" then d else s
  | none => d

/-- JS `a || b` for arrays: only an absent array falls through (an empty
array is truthy). -/
def jsOrList {α : Type} (o : Option (List α)) (d : List α) : List α :=
  o.getD d

/-- `item.LN && item.LN.Required === true`. -/
def levelRequired (o : Option RawLevelObj) : Bool :=
  match o with
  | some v => v.Required = some true
  | none => false

/-- `extractLevels`: collect the levels whose flag is set in either format;
when none is set, default to `[1, 2, 3]`. -/
def extractLevels (item : RawItem) : List Int :=
  let levels : List Int :=
    (if levelRequired item.L1 || item.level_1 = some true then [1] else []) ++
    (if levelRequired item.L2 || item.level_2 = some true then [2] else []) ++
    (if levelRequired item.L3 || item.level_3 = some true then [3] else [])
  if 0 < levels.length then levels else [1, 2, 3]

/-- Parsing of one raw item into an `ASVSRequirement` (the loop body of
`parseASVSData`); a parsed requirement carries no inline compliance data. -/
def parseItem (mappings : OfficialMappings) (categoryName sectionName : String)
    (item : RawItem) : ASVSRequirement :=
  let requirementId :=
    jsOrStr item.Shortcode (jsOrStr item.shortcode
      (jsOrStr item.id (jsOrStr item.req_id "")))
  let cweMapping := mapGet mappings.cwe requirementId
  let nistMapping := mapGet mappings.nist requirementId
  { id := requirementId
    category := categoryName
    subcategory := sectionName
    description :=
      jsOrStr item.Description (jsOrStr item.description
        (jsOrStr item.requirement ""))
    level := extractLevels item
    cwe :=
      match cweMapping with
      | some s =>
        if s ≠ "" then ["CWE-" ++ s] else jsOrList item.CWE (jsOrList item.cwe [])
      | none => jsOrList item.CWE (jsOrList item.cwe [])
    nist :=
      match nistMapping with
      | some l => l
      | none => jsOrList item.NIST (jsOrList item.nist [])
    compliance := [] }

/-- The requirement list collected for one raw category. -/
def parseCategoryReqs (mappings : OfficialMappings) (categoryName : String)
    (category : RawCategory) : List ASVSRequirement :=
  (jsOrList category.Items (jsOrList category.items [])).foldl
    (fun acc sect =>
      let sectionName := jsOrStr sect.Name (jsOrStr sect.name "")
      (jsOrList sect.Items (jsOrList sect.items [])).foldl
        (fun acc item => acc ++ [parseItem mappings categoryName sectionName item])
        acc)
    []

/-- `parseASVSData`: a category is kept only when it contributed at least one
requirement. -/
def parseASVSData (data : RawData) (mappings : OfficialMappings) :
    List ASVSCategory :=
  (jsOrList data.Requirements (jsOrList data.requirements [])).foldl
    (fun acc category =>
      let categoryName :=
        jsOrStr category.Name (jsOrStr category.name (jsOrStr category.title ""))
      let categoryId :=
        jsOrStr category.Shortcode
          (jsOrStr category.shortcode (jsOrStr category.chapter ""))
      let allRequirements := parseCategoryReqs mappings categoryName category
      if 0 < allRequirements.length then
        acc ++ [{ id := categoryId, name := categoryName,
                  requirements := allRequirements }]
      else acc)
    []

/-! ## Rate limiter

Modelled from the spec: the sliding-window `RateLimiter` class is not part of
`src/index.ts` (only the repository security-verification script and the
documentation refer to it), so it is embedded from the specification: per
identity a list of recent call timestamps; `allow` drops timestamps older
than `windowMs` from now, rejects without recording when the remaining count
is at least `maxRequests`, and otherwise records now and accepts. -/

/-- Sliding-window rate limiter state. -/
structure RateLimiter where
  windowMs : Nat
  maxRequests : Nat
  state : List (String × List Nat)
  deriving DecidableEq

/-- Drop the timestamps older than `windowMs` from `now`
(`now - t < windowMs` keeps a timestamp). -/
def rlPrune (windowMs now : Nat) (ts : List Nat) : List Nat :=
  ts.filter (fun t => now - t < windowMs)

/-- Modelled from the spec: `allow(identity)` of the missing `RateLimiter`
class, with the current clock value passed explicitly. -/
def RateLimiter.allow (rl : RateLimiter) (now : Nat) (identity : String) :
    Bool × RateLimiter :=
  let recent := rlPrune rl.windowMs now ((mapGet rl.state identity).getD [])
  if rl.maxRequests ≤ recent.length then
    (false, { rl with state := mapSet rl.state identity recent })
  else
    (true, { rl with state := mapSet rl.state identity (recent ++ [now]) })

/-- Modelled from the spec: `currentCount(identity)`, the drop-then-count
read that does not mutate. -/
def RateLimiter.currentCount (rl : RateLimiter) (now : Nat)
    (identity : String) : Nat :=
  (rlPrune rl.windowMs now ((mapGet rl.state identity).getD [])).length

/-- Modelled from the spec: `reset()` clears all state. -/
def RateLimiter.reset (rl : RateLimiter) : RateLimiter :=
  { rl with state := [] }

/-! ## Result inspection helpers and concrete fixtures -/

/-- The caller-visible error message of a result, when it is an error. -/
def errMsg {α : Type} : Except String α → Option String
  | Except.ok _ => none
  | Except.error m => some m

/-- The flat requirement list of a dataset, in iteration order. -/
def datasetRequirements (data : List ASVSCategory) : List ASVSRequirement :=
  data.foldr (fun c acc => c.requirements ++ acc) []

/-- The flat (requirement, owning category) list of a dataset. -/
def datasetEntries (data : List ASVSCategory) :
    List (ASVSRequirement × ASVSCategory) :=
  data.foldr (fun c acc => c.requirements.map (fun r => (r, c)) ++ acc) []

/-- Does the requirement carry a non-empty reference list for the
framework?  This is the guard of the gap-analysis inner loop. -/
def hasFrameworkRefs (req : ASVSRequirement) (framework : String) : Bool :=
  match mapGet req.compliance framework with
  | some refs => decide (0 < refs.length)
  | none => false

/-- A small concrete dataset: the Authentication category of the embedded
mock data, first requirement. -/
def demoReq1 : ASVSRequirement :=
  { id := "2.1.1"
    category := "Authentication"
    subcategory := "Password Security"
    description := "Verify that user set passwords are at least 12 characters in length."
    level := [1, 2, 3]
    cwe := ["CWE-521"]
    nist := ["SP800-63B"]
    compliance := [("pci_dss", ["8.2.3", "8.2.4"]),
                   ("hipaa", ["164.308(a)(5)(ii)(D)"]),
                   ("gdpr", ["Article 32"]),
                   ("sox", []),
                   ("iso27001", ["A.9.4.3"])] }

/-- The demo category. -/
def demoCat : ASVSCategory :=
  { id := "V2", name := "Authentication", requirements := [demoReq1] }

/-- The demo server state. -/
def demoState : ServerState := mkServer [demoCat]

/-- The end-to-end scenario requirement of the specification:
`{id:"X1", category:"Auth", levels:[1,2,3], complianceRefs:{hipaa:["164.308"]}}`. -/
def x1req : ASVSRequirement :=
  { id := "X1"
    category := "Auth"
    subcategory := ""
    description := ""
    level := [1, 2, 3]
    cwe := []
    nist := []
    compliance := [("hipaa", ["164.308"])] }

/-- The category wrapping the scenario requirement. -/
def x1cat : ASVSCategory :=
  { id := "VAuth", name := "Auth", requirements := [x1req] }

/-- The scenario server state. -/
def x1State : ServerState := mkServer [x1cat]

/-- A requirement whose category string strictly contains the
high-priority category name "Authentication" without being equal to any
member of `COMPLIANCE_HIGH_PRIORITY_CATEGORIES`. -/
def c7req : ASVSRequirement :=
  { id := "C1.1"
    category := "Authentications"
    subcategory := ""
    description := ""
    level := [1]
    cwe := []
    nist := []
    compliance := [] }

/-- A synthetic gap-analysis requirement: level 2, mapped to framework
"x" exactly when `withX` is set. -/
def synthReq (rid : String) (withX : Bool) : ASVSRequirement :=
  { id := rid
    category := "Synth"
    subcategory := ""
    description := ""
    level := [2]
    cwe := []
    nist := []
    compliance := if withX then [("x", ["ref"])] else [] }

/-- The synthetic dataset of the gap-analysis coverage example: 10
requirements at level 2, the first 4 mapped to framework "x". -/
def synthData : List ASVSCategory :=
  [{ id := "SY"
     name := "Synth"
     requirements :=
       [synthReq "S1" true, synthReq "S2" true, synthReq "S3" true,
        synthReq "S4" true, synthReq "S5" false, synthReq "S6" false,
        synthReq "S7" false, synthReq "S8" false, synthReq "S9" false,
        synthReq "S10" false] }]

/-- A raw item with every optional field absent: no level flag is set. -/
def rawItem0 : RawItem :=
  { Shortcode := some "1.1.1", shortcode := none, id := none, req_id := none
    Description := some "A raw requirement text", description := none
    requirement := none
    L1 := none, L2 := none, L3 := none
    level_1 := none, level_2 := none, level_3 := none
    CWE := none, cwe := none, NIST := none, nist := none }

/-- A raw document holding `rawItem0` in one section of one category. -/
def rawData0 : RawData :=
  { Requirements := none
    requirements := some
      [{ Name := none, name := some "Raw Category", title := none
         Shortcode := none, shortcode := some "V1", chapter := none
         Items := none
         items := some
           [{ Name := none, name := some "Raw Section"
              Items := none, items := some [rawItem0] }] }] }

/-- Empty official mapping tables. -/
def noMappings : OfficialMappings := { cwe := [], nist := [] }

/-! ## Association-list and set lemmas -/

theorem mapGet_set_self {α : Type} (m : List (String × α)) (k : String)
    (v : α) : mapGet (mapSet m k v) k = some v := by
  induction m with
  | nil => simp [mapGet, mapSet]
  | cons p t ih =>
    by_cases h : p.fst = k
    · simp [mapSet, mapGet, h]
    · simp [mapSet, mapGet, h, ih]

theorem mapGet_set_other {α : Type} (m : List (String × α)) (k k' : String)
    (v : α) (h : k' ≠ k) : mapGet (mapSet m k v) k' = mapGet m k' := by
  induction m with
  | nil => simp [mapGet, mapSet, Ne.symm h]
  | cons p t ih =>
    by_cases hp : p.fst = k
    · have hpk' : ¬p.fst = k' := fun hh => h (hh.symm.trans hp)
      simp [mapSet, mapGet, hp, Ne.symm h, hpk']
    · by_cases hp' : p.fst = k'
      · simp [mapSet, mapGet, hp, hp', h]
      · simp [mapSet, mapGet, hp, hp', ih]

theorem mapGet_append_of_none {α : Type} (m1 m2 : List (String × α))
    (k : String) (h : mapGet m1 k = none) :
    mapGet (m1 ++ m2) k = mapGet m2 k := by
  induction m1 with
  | nil => simp
  | cons p t ih =>
    by_cases hp : p.fst = k
    · simp [mapGet, hp] at h
    · simp [mapGet, hp] at h ⊢
      exact ih h

theorem mapGet_append_of_some {α : Type} (m1 m2 : List (String × α))
    (k : String) (v : α) (h : mapGet m1 k = some v) :
    mapGet (m1 ++ m2) k = some v := by
  induction m1 with
  | nil => simp [mapGet] at h
  | cons p t ih =>
    by_cases hp : p.fst = k
    · simp [mapGet, hp] at h ⊢
      exact h
    · simp [mapGet, hp] at h ⊢
      exact ih h

theorem setAdd_mem_self (s : List String) (x : String) : x ∈ setAdd s x := by
  unfold setAdd
  by_cases h : x ∈ s <;> simp [h]

theorem setAdd_mem_mono (s : List String) (x y : String) (h : y ∈ s) :
    y ∈ setAdd s x := by
  unfold setAdd
  by_cases hx : x ∈ s <;> simp [hx, h]

theorem insertToken_mem_self (idx : List (String × List String))
    (tok rid : String) :
    rid ∈ (mapGet (insertToken idx tok rid) tok).getD [] := by
  unfold insertToken
  cases h : mapGet idx tok with
  | some s => simp [mapGet_set_self, setAdd_mem_self]
  | none => simp [mapGet_append_of_none idx _ tok h, mapGet]

theorem insertToken_mem_mono (idx : List (String × List String))
    (tok rid tok2 rid2 : String)
    (h : rid ∈ (mapGet idx tok).getD []) :
    rid ∈ (mapGet (insertToken idx tok2 rid2) tok).getD [] := by
  unfold insertToken
  cases h2 : mapGet idx tok2 with
  | some s =>
    by_cases he : tok = tok2
    · subst he
      rw [h2] at h
      simp only [Option.getD_some] at h
      simp [mapGet_set_self, setAdd_mem_mono _ _ _ h]
    · simp [mapGet_set_other idx tok2 tok _ he, h]
  | none =>
    cases hx : mapGet idx tok with
    | some v =>
      rw [hx] at h
      simp only [Option.getD_some] at h
      simp [mapGet_append_of_some idx _ tok v hx, h]
    | none => simp [hx] at h

/-! ## Claim theorems -/

/-- C3: the sliding-window rate limiter drops timestamps older than
`windowMs`, rejects without recording when the pruned count is at least
`maxRequests`, and otherwise records the call and accepts; with
`windowMs = 1000` and `maxRequests = 3`, three immediate calls are allowed,
a fourth immediate call is rejected, and a call after more than `windowMs`
is allowed again. -/
theorem rateLimiter_sliding_window :
    (∀ (rl : RateLimiter) (now : Nat) (identity : String),
      (rl.allow now identity).1 =
        decide (rl.currentCount now identity < rl.maxRequests) ∧
      (rl.allow now identity).2.state =
        (if rl.currentCount now identity < rl.maxRequests then
          mapSet rl.state identity
            (rlPrune rl.windowMs now ((mapGet rl.state identity).getD []) ++ [now])
        else
          mapSet rl.state identity
            (rlPrune rl.windowMs now ((mapGet rl.state identity).getD [])))) ∧
    ((RateLimiter.allow ⟨1000, 3, []⟩ 0 "client").1 = true ∧
     ((RateLimiter.allow ⟨1000, 3, []⟩ 0 "client").2.allow 0 "client").1 = true ∧
     ((((RateLimiter.allow ⟨1000, 3, []⟩ 0 "client").2.allow 0 "client").2.allow
        0 "client").1 = true) ∧
     (((((RateLimiter.allow ⟨1000, 3, []⟩ 0 "client").2.allow 0 "client").2.allow
        0 "client").2.allow 0 "client").1 = false) ∧
     ((((((RateLimiter.allow ⟨1000, 3, []⟩ 0 "client").2.allow 0 "client").2.allow
        0 "client").2.allow 0 "client").2.allow 1001 "client").1 = true)) := by
  constructor
  · intro rl now identity
    simp only [RateLimiter.allow, RateLimiter.currentCount]
    by_cases h : rl.maxRequests ≤
        (rlPrune rl.windowMs now ((mapGet rl.state identity).getD [])).length
    · simp [h, Nat.not_lt.mpr h]
    · simp [h, Nat.not_le.mp h]
  · decide

/-- C4: the source `buildSearchIndex` checks no cache-entry counter: its
token insertion unconditionally creates the key and records the requirement
id, whatever the current size of the index, contradicting the documented
`MAX_CACHE_ENTRIES` cap. -/
theorem searchIndex_no_cache_cap (idx : List (String × List String))
    (tok rid : String) :
    (mapGet (insertToken idx tok rid) tok).isSome = true ∧
    rid ∈ (mapGet (insertToken idx tok rid) tok).getD [] := by
  refine ⟨?_, insertToken_mem_self idx tok rid⟩
  have h := insertToken_mem_self idx tok rid
  cases hx : mapGet (insertToken idx tok rid) tok with
  | some _ => rfl
  | none => rw [hx] at h; simp at h

/-- C5 counterexample: with the out-of-range level 5, the prioritized
recommendation and the gap analysis both return a success result, not an
error result, so the claim that every level-taking operation rejects levels
outside `{1, 2, 3}` fails on the code. -/
theorem levelValidation_counterexample :
    isSuccess (recommendPriorityControls demoState 5 none none none none none)
      = true ∧
    isSuccess (getComplianceGapAnalysis demoState ["hipaa"] 5 none) = true ∧
    (5 : Int) ∉ ([1, 2, 3] : List Int) := by
  refine ⟨rfl, rfl, by decide⟩

/-- C5 amended: only the by-level operation validates its level argument
(yielding a structured error for a level outside `{1, 2, 3}`); the
prioritized recommendation and the gap analysis perform no level validation
and return a success result for every level. -/
theorem levelValidation_amended :
    (∀ (st : ServerState) (level : Int) (offset limit : Option ℚ),
      level ∉ ([1, 2, 3] : List Int) →
      getRequirementsByLevel st level offset limit =
        Except.error ("Invalid level: " ++ toString level ++
          ". Must be 1, 2, or 3.")) ∧
    (∀ (st : ServerState) (tl : Int) (cl : Option Int)
      (fa : Option (List String)) (appty : Option String) (o l : Option ℚ),
      isSuccess (recommendPriorityControls st tl cl fa appty o l) = true) ∧
    (∀ (st : ServerState) (fws : List String) (tl : Int)
      (imp : Option (List String)),
      isSuccess (getComplianceGapAnalysis st fws tl imp) = true) := by
  refine ⟨?_, fun _ _ _ _ _ _ _ => rfl, fun _ _ _ _ => rfl⟩
  intro st level offset limit h
  unfold getRequirementsByLevel
  rw [if_neg h]

/-- C5 witness: the amended theorem applied at level 5. -/
theorem levelValidation_amended_witness :
    getRequirementsByLevel demoState 5 none none =
      Except.error ("Invalid level: " ++ toString (5 : Int) ++
        ". Must be 1, 2, or 3.") :=
  levelValidation_amended.1 demoState 5 none none (by decide)

/-- C7 counterexample: a requirement whose category string is not a member
of `COMPLIANCE_HIGH_PRIORITY_CATEGORIES` (it merely contains
"Authentication" as a substring), with no compliance references and level
`[1]`, is scored HIGH by the code, while the claim characterization would
score it LOW. -/
theorem gapPriority_counterexample :
    calculateGapPriority c7req "gdpr" = "HIGH" ∧
    c7req.category ∉ COMPLIANCE_HIGH_PRIORITY_CATEGORIES ∧
    isCriticalCompliance c7req "gdpr" = false ∧
    (2 : Int) ∉ c7req.level := by
  refine ⟨rfl, by decide, rfl, by decide⟩

/-- C7 amended: `calculateGapPriority` is a deterministic function returning
HIGH exactly when a reference for the framework contains one of the fixed
critical substrings or the requirement category string contains a member of
`COMPLIANCE_HIGH_PRIORITY_CATEGORIES` and the requirement applies at level
1; otherwise MEDIUM exactly when the category contains such a member or the
requirement applies at level 2; otherwise LOW. -/
theorem gapPriority_characterization (req : ASVSRequirement)
    (framework : String) :
    (calculateGapPriority req framework = "HIGH" ↔
      (isCriticalCompliance req framework ||
        (isHighPriorityCategory req && decide ((1 : Int) ∈ req.level)))
        = true) ∧
    (calculateGapPriority req framework = "MEDIUM" ↔
      ((!(isCriticalCompliance req framework ||
          (isHighPriorityCategory req && decide ((1 : Int) ∈ req.level)))) &&
        (isHighPriorityCategory req || decide ((2 : Int) ∈ req.level)))
        = true) ∧
    (calculateGapPriority req framework = "LOW" ↔
      ((!(isCriticalCompliance req framework ||
          (isHighPriorityCategory req && decide ((1 : Int) ∈ req.level)))) &&
        (!(isHighPriorityCategory req || decide ((2 : Int) ∈ req.level))))
        = true) := by
  unfold calculateGapPriority
  by_cases h1 : (isCriticalCompliance req framework ||
      (isHighPriorityCategory req && decide ((1 : Int) ∈ req.level))) = true
  · simp [h1]
  · by_cases h2 : (isHighPriorityCategory req ||
        decide ((2 : Int) ∈ req.level)) = true
    · simp [h1, h2]
    · simp [h1, h2]

/-- C9 counterexample: in the end-to-end scenario the compliance mapping
returned for "X1" is keyed by the display name "HIPAA" produced by
`FRAMEWORK_MAP`, not by the framework key "hipaa" stated in the claim. -/
theorem endToEnd_counterexample :
    ((mapRequirementToCompliance x1State "X1").toOption.map
      MapToComplianceResult.compliance_mappings) =
        some [("HIPAA", ["164.308"])] ∧
    ((mapRequirementToCompliance x1State "X1").toOption.map
      (fun r => mapGet r.compliance_mappings "hipaa")) = some none := by
  exact ⟨rfl, rfl⟩

/-- C9 amended: the end-to-end scenario with the mapping keyed by the
`FRAMEWORK_MAP` display name: `get_by_id("X1")` succeeds with the record,
`map_to_compliance("X1")` returns `{"HIPAA": ["164.308"]}` with one
framework mapping and one control reference, and `map_to_compliance("nope")`
is a not-found error. -/
theorem endToEnd_scenario :
    getRequirementDetails x1State "X1" =
      Except.ok { requirement := x1req, category_name := "Auth",
                  category_id := "VAuth" } ∧
    ((mapRequirementToCompliance x1State "X1").toOption.map
      (fun r => (r.compliance_mappings, r.total_framework_mappings,
        r.total_control_references))) =
      some ([("HIPAA", ["164.308"])], 1, 1) ∧
    errMsg (mapRequirementToCompliance x1State "nope") =
      some ("Requirement " ++ squote ++ "nope" ++ squote ++ " not found.") := by
  refine ⟨rfl, rfl, rfl⟩

/-- C1 counterexample: for the unknown category name "zzz" (which matches no
category exactly or by substring), the caller-visible error message contains
the real category name "Authentication" as a substring — the source
interpolates all available category names into the response. -/
theorem categoryMessage_counterexample :
    errMsg (getRequirementsByCategory demoState "zzz" none none none) =
      some (categoryNotFoundMessage "zzz" [demoCat]) ∧
    strContains (categoryNotFoundMessage "zzz" [demoCat]) "Authentication"
      = true ∧
    [demoCat].map ASVSCategory.name = ["Authentication"] ∧
    resolveCategory demoState (strLower "zzz") = none := by
  refine ⟨rfl, rfl, rfl, rfl⟩

/-- C1 amended: whenever the input resolves to no category (and passes the
length bound), the by-category operation returns an error whose message
embeds the full list of real category names, joined after the fixed
"Available categories: " text. -/
theorem categoryNotFound_echoes_names (data : List ASVSCategory)
    (categoryName : String) (level : Option Int) (offset limit : Option ℚ)
    (hlen : categoryName.length ≤ MAX_CATEGORY_LENGTH)
    (hres : resolveCategory (mkServer data) (strLower categoryName) = none) :
    getRequirementsByCategory (mkServer data) categoryName level offset limit
      = Except.error (categoryNotFoundMessage categoryName data) := by
  unfold getRequirementsByCategory
  rw [if_neg (by omega : ¬MAX_CATEGORY_LENGTH < categoryName.length)]
  simp only [hres]
  rfl

/-- C1 witness: the amended theorem applied at the demo dataset and the
unknown name "zzz". -/
theorem categoryNotFound_echoes_names_witness :
    getRequirementsByCategory demoState "zzz" none none none =
      Except.error (categoryNotFoundMessage "zzz" [demoCat]) :=
  categoryNotFound_echoes_names [demoCat] "zzz" none none none
    (by decide) (by decide)

/-! ## Parser lemmas for the level invariant -/

theorem ite_default_ne_nil (l : List Int) :
    (if 0 < l.length then l else [1, 2, 3]) ≠ [] := by
  split
  · next h => exact List.ne_nil_of_length_pos h
  · simp

theorem extractLevels_ne_nil (item : RawItem) : extractLevels item ≠ [] :=
  ite_default_ne_nil _

theorem foldl_append_item_eq {α β : Type} (f : β → α) (l : List β)
    (init : List α) :
    l.foldl (fun acc x => acc ++ [f x]) init = init ++ l.map f := by
  induction l generalizing init with
  | nil => simp
  | cons x t ih => simp [ih, List.append_assoc]

theorem mem_parseCategoryReqs (mappings : OfficialMappings) (nm : String)
    (category : RawCategory) (req : ASVSRequirement)
    (h : req ∈ parseCategoryReqs mappings nm category) :
    ∃ sectionName item, req = parseItem mappings nm sectionName item := by
  unfold parseCategoryReqs at h
  revert h
  generalize jsOrList category.Items (jsOrList category.items []) = sections
  suffices hs : ∀ (init : List ASVSRequirement),
      (∀ r ∈ init, ∃ sectionName item, r = parseItem mappings nm sectionName item) →
      req ∈ sections.foldl
        (fun acc sect =>
          (jsOrList sect.Items (jsOrList sect.items [])).foldl
            (fun acc item => acc ++
              [parseItem mappings nm (jsOrStr sect.Name (jsOrStr sect.name "")) item])
            acc)
        init →
      ∃ sectionName item, req = parseItem mappings nm sectionName item by
    intro h
    exact hs [] (by simp) h
  induction sections with
  | nil =>
    intro init hinit h
    exact hinit req h
  | cons sect t ih =>
    intro init hinit h
    refine ih _ ?_ h
    intro r hr
    simp only [] at hr
    rw [foldl_append_item_eq] at hr
    rcases List.mem_append.mp hr with hr | hr
    · exact hinit r hr
    · rcases List.mem_map.mp hr with ⟨item, _, hitem⟩
      exact ⟨_, item, hitem.symm⟩

theorem mem_parseASVSData (data : RawData) (mappings : OfficialMappings)
    (cat : ASVSCategory) (h : cat ∈ parseASVSData data mappings) :
    ∃ nm category, cat.requirements = parseCategoryReqs mappings nm category := by
  unfold parseASVSData at h
  revert h
  generalize jsOrList data.Requirements (jsOrList data.requirements []) = rawcats
  suffices hs : ∀ (init : List ASVSCategory),
      (∀ c ∈ init, ∃ nm category,
        c.requirements = parseCategoryReqs mappings nm category) →
      cat ∈ rawcats.foldl
        (fun acc category =>
          let categoryName := jsOrStr category.Name
            (jsOrStr category.name (jsOrStr category.title ""))
          let categoryId := jsOrStr category.Shortcode
            (jsOrStr category.shortcode (jsOrStr category.chapter ""))
          let allRequirements := parseCategoryReqs mappings categoryName category
          if 0 < allRequirements.length then
            acc ++ [{ id := categoryId, name := categoryName,
                      requirements := allRequirements }]
          else acc)
        init →
      ∃ nm category, cat.requirements = parseCategoryReqs mappings nm category by
    intro h
    exact hs [] (by simp) h
  induction rawcats with
  | nil =>
    intro init hinit h
    exact hinit cat h
  | cons rc t ih =>
    intro init hinit h
    refine ih _ ?_ h
    intro c hc
    simp only at hc
    split at hc
    · rcases List.mem_append.mp hc with hc | hc
      · exact hinit c hc
      · simp only [List.mem_singleton] at hc
        subst hc
        exact ⟨_, rc, rfl⟩
    · exact hinit c hc

/-- C10: every requirement produced by the parser has a non-empty level
list: `extractLevels` defaults to `[1, 2, 3]` when no level flag of either
input format is set, and every requirement of every parsed category carries
`extractLevels` output. -/
theorem parser_levels_nonempty :
    (∀ item : RawItem,
      extractLevels item ≠ [] ∧
      ((levelRequired item.L1 || decide (item.level_1 = some true)) = false →
       (levelRequired item.L2 || decide (item.level_2 = some true)) = false →
       (levelRequired item.L3 || decide (item.level_3 = some true)) = false →
       extractLevels item = [1, 2, 3])) ∧
    (∀ (data : RawData) (mappings : OfficialMappings),
      ∀ cat ∈ parseASVSData data mappings, ∀ req ∈ cat.requirements,
        req.level ≠ []) := by
  constructor
  · intro item
    refine ⟨extractLevels_ne_nil item, ?_⟩
    intro h1 h2 h3
    simp only [Bool.or_eq_false_iff, decide_eq_false_iff_not] at h1 h2 h3
    unfold extractLevels
    simp [h1.1, h1.2, h2.1, h2.2, h3.1, h3.2]
  · intro data mappings cat hcat req hreq
    rcases mem_parseASVSData data mappings cat hcat with ⟨nm, category, hcr⟩
    rw [hcr] at hreq
    rcases mem_parseCategoryReqs mappings nm category req hreq with
      ⟨sectionName, item, hitem⟩
    rw [hitem]
    exact extractLevels_ne_nil item

/-- C10 witness: the theorem applied to a raw item with no level flag and to
the concrete raw document holding it. -/
theorem parser_levels_nonempty_witness :
    extractLevels rawItem0 = [1, 2, 3] ∧
    ((parseASVSData rawData0 noMappings).head?.map
      (fun c => c.requirements.map ASVSRequirement.level)) = some [[1, 2, 3]] ∧
    (∀ req ∈ ((parseASVSData rawData0 noMappings).headD
        ⟨"", "", []⟩).requirements, req.level ≠ []) := by
  refine ⟨(parser_levels_nonempty.1 rawItem0).2 (by decide) (by decide) (by decide),
    rfl, ?_⟩
  intro req hreq
  exact parser_levels_nonempty.2 rawData0 noMappings
    ((parseASVSData rawData0 noMappings).headD ⟨"", "", []⟩)
    (by decide) req hreq

/-! ## Pagination lemmas -/

theorem toIntegerOrInfinity_intCast (a : ℤ) :
    toIntegerOrInfinity (a : ℚ) = a := by
  unfold toIntegerOrInfinity
  by_cases h : (a : ℚ) < 0
  · rw [if_pos h, ← Int.cast_neg, Int.floor_intCast, neg_neg]
  · rw [if_neg h, Int.floor_intCast]

theorem jsSlice_intCast_length {α : Type} (items : List α) (a b : ℤ)
    (ha : 0 ≤ a) (hb : 0 ≤ b) :
    ((jsSlice items (a : ℚ) (b : ℚ)).length : ℤ) =
      max 0 (min b (items.length : ℤ) - min a (items.length : ℤ)) := by
  simp only [jsSlice, toIntegerOrInfinity_intCast,
    if_neg (not_lt.mpr ha), if_neg (not_lt.mpr hb)]
  simp only [List.length_take, List.length_drop]
  omega

/-- C2 counterexample: with the non-integer offset 1/2 on a one-element
list, `applyPagination` returns one item, while the claimed formula
`min(limit_clamped, max(0, total - offset_clamped))` evaluates to 1/2, so
the claimed equation fails for non-integer inputs (JS `slice` truncates the
clamped rational offset). -/
theorem pagination_counterexample :
    (applyPagination ([0] : List Nat) (1 / 2 : ℚ) 1).2.offset = 1 / 2 ∧
    (applyPagination ([0] : List Nat) (1 / 2 : ℚ) 1).2.limit = 1 ∧
    (applyPagination ([0] : List Nat) (1 / 2 : ℚ) 1).2.total = 1 ∧
    (applyPagination ([0] : List Nat) (1 / 2 : ℚ) 1).2.returned = 1 ∧
    ¬(((applyPagination ([0] : List Nat) (1 / 2 : ℚ) 1).2.returned : ℚ) =
      min (applyPagination ([0] : List Nat) (1 / 2 : ℚ) 1).2.limit
        (max 0 (((applyPagination ([0] : List Nat) (1 / 2 : ℚ) 1).2.total : ℚ)
          - (applyPagination ([0] : List Nat) (1 / 2 : ℚ) 1).2.offset))) := by
  refine ⟨?_, ?_, ?_, ?_, ?_⟩ <;>
    norm_num [applyPagination, jsSlice, toIntegerOrInfinity, min_def, max_def]

/-- C2 amended: for every item list and all integer offset/limit values
(including negative, zero and huge ones), `applyPagination` never throws (it
is a total function), clamps the offset into `[0, items.length]` and the
limit into `[1, 500]`, reports `total = items.length`, satisfies
`returned = min(limit_clamped, max(0, total - offset_clamped))`, and
`hasMore = offset_clamped + returned < total`.  (For non-integer inputs the
clamping and the `hasMore` equation still hold, but `returned` is computed
from truncated slice indices, see the counterexample.) -/
theorem applyPagination_invariant {α : Type} (items : List α) (o l : ℤ) :
    0 ≤ (applyPagination items (o : ℚ) (l : ℚ)).2.offset ∧
    (applyPagination items (o : ℚ) (l : ℚ)).2.offset ≤ (items.length : ℚ) ∧
    1 ≤ (applyPagination items (o : ℚ) (l : ℚ)).2.limit ∧
    (applyPagination items (o : ℚ) (l : ℚ)).2.limit ≤ 500 ∧
    (applyPagination items (o : ℚ) (l : ℚ)).2.total = items.length ∧
    ((applyPagination items (o : ℚ) (l : ℚ)).2.returned : ℚ) =
      min (applyPagination items (o : ℚ) (l : ℚ)).2.limit
        (max 0 ((items.length : ℚ) -
          (applyPagination items (o : ℚ) (l : ℚ)).2.offset)) ∧
    (applyPagination items (o : ℚ) (l : ℚ)).2.hasMore =
      decide ((applyPagination items (o : ℚ) (l : ℚ)).2.offset +
        (((applyPagination items (o : ℚ) (l : ℚ)).2.returned : ℕ) : ℚ) <
        (items.length : ℚ)) := by
  have hoff : (applyPagination items (o : ℚ) (l : ℚ)).2.offset =
      max 0 (min (o : ℚ) (items.length : ℚ)) := rfl
  have hlim : (applyPagination items (o : ℚ) (l : ℚ)).2.limit =
      max 1 (min (l : ℚ) 500) := rfl
  have hoffi : max 0 (min (o : ℚ) (items.length : ℚ)) =
      ((max 0 (min o (items.length : ℤ)) : ℤ) : ℚ) := by push_cast; rfl
  have hlimi : max 1 (min (l : ℚ) 500) =
      ((max 1 (min l 500) : ℤ) : ℚ) := by push_cast; rfl
  have hret : (applyPagination items (o : ℚ) (l : ℚ)).2.returned =
      (jsSlice items (max 0 (min (o : ℚ) (items.length : ℚ)))
        (max 0 (min (o : ℚ) (items.length : ℚ)) +
          max 1 (min (l : ℚ) 500))).length := rfl
  refine ⟨le_max_left 0 _,
    hoff ▸ max_le (by positivity) (min_le_right _ _),
    le_max_left 1 _,
    hlim ▸ max_le (by norm_num) (min_le_right _ _),
    rfl, ?_, rfl⟩
  rw [hret, hoff, hlim, hoffi, hlimi]
  have hsum : ((max 0 (min o (items.length : ℤ)) : ℤ) : ℚ) +
      ((max 1 (min l 500) : ℤ) : ℚ) =
      (((max 0 (min o (items.length : ℤ)) + max 1 (min l 500) : ℤ)) : ℚ) := by
    push_cast; ring
  rw [hsum]
  have hlen := jsSlice_intCast_length items
    (max 0 (min o (items.length : ℤ)))
    (max 0 (min o (items.length : ℤ)) + max 1 (min l 500))
    (le_max_left 0 _)
    (by
      have h1 : (0 : ℤ) ≤ max 0 (min o (items.length : ℤ)) := le_max_left 0 _
      have h2 : (1 : ℤ) ≤ max 1 (min l 500) := le_max_left 1 _
      omega)
  have hgoal : ((jsSlice items
      ((max 0 (min o (items.length : ℤ)) : ℤ) : ℚ)
      (((max 0 (min o (items.length : ℤ)) + max 1 (min l 500) : ℤ)) : ℚ)).length
        : ℤ) =
      min (max 1 (min l 500))
        (max 0 ((items.length : ℤ) - max 0 (min o (items.length : ℤ)))) := by
    rw [hlen]
    have h3 : (0 : ℤ) ≤ (items.length : ℤ) := Int.ofNat_nonneg _
    omega
  calc ((jsSlice items ((max 0 (min o (items.length : ℤ)) : ℤ) : ℚ)
          (((max 0 (min o (items.length : ℤ)) + max 1 (min l 500) : ℤ)) : ℚ)).length
            : ℚ)
      = ((min (max 1 (min l 500))
          (max 0 ((items.length : ℤ) - max 0 (min o (items.length : ℤ)))) : ℤ) : ℚ) := by
        exact_mod_cast congrArg (fun z : ℤ => (z : ℚ)) hgoal
    _ = min ((max 1 (min l 500) : ℤ) : ℚ)
          (max 0 ((items.length : ℚ) - ((max 0 (min o (items.length : ℤ)) : ℤ) : ℚ))) := by
        push_cast; rfl

/-! ## Index-construction lemmas -/

theorem mem_datasetRequirements (data : List ASVSCategory)
    (cat : ASVSCategory) (req : ASVSRequirement) (hc : cat ∈ data)
    (hr : req ∈ cat.requirements) : req ∈ datasetRequirements data := by
  induction data with
  | nil => cases hc
  | cons c t ih =>
    rcases List.mem_cons.mp hc with rfl | hct
    · exact List.mem_append.mpr (Or.inl hr)
    · exact List.mem_append.mpr (Or.inr (ih hct))

theorem mem_datasetEntries (data : List ASVSCategory) (cat : ASVSCategory)
    (req : ASVSRequirement) (hc : cat ∈ data) (hr : req ∈ cat.requirements) :
    (req, cat) ∈ datasetEntries data := by
  induction data with
  | nil => cases hc
  | cons c t ih =>
    rcases List.mem_cons.mp hc with rfl | hct
    · exact List.mem_append.mpr (Or.inl (List.mem_map_of_mem _ hr))
    · exact List.mem_append.mpr (Or.inr (ih hct))

theorem datasetEntries_map_id (data : List ASVSCategory) :
    (datasetEntries data).map (fun p => p.fst.id) =
      (datasetRequirements data).map ASVSRequirement.id := by
  induction data with
  | nil => rfl
  | cons c t ih =>
    show ((c.requirements.map (fun r => (r, c))) ++ datasetEntries t).map _ =
      (c.requirements ++ datasetRequirements t).map _
    simp only [List.map_append, List.map_map, ih]
    rfl

theorem buildRequirementIndex_eq (data : List ASVSCategory) :
    buildRequirementIndex data =
      (datasetEntries data).foldl (fun idx p => mapSet idx p.fst.id p) [] := by
  suffices hs : ∀ (data : List ASVSCategory)
      (init : List (String × (ASVSRequirement × ASVSCategory))),
      data.foldl
        (fun idx category => category.requirements.foldl
          (fun idx req => mapSet idx req.id (req, category)) idx) init =
      (datasetEntries data).foldl (fun idx p => mapSet idx p.fst.id p) init by
    exact hs data []
  intro data
  induction data with
  | nil => intro init; rfl
  | cons c t ih =>
    intro init
    show t.foldl _ (c.requirements.foldl _ init) = _
    rw [ih]
    show _ = ((c.requirements.map (fun r => (r, c))) ++ datasetEntries t).foldl
      (fun idx p => mapSet idx p.fst.id p) init
    rw [List.foldl_append, List.foldl_map]

theorem buildSearchIndex_eq (data : List ASVSCategory) :
    buildSearchIndex data =
      (datasetRequirements data).foldl
        (fun idx req => (reqTokens req).foldl
          (fun idx tok => insertToken idx tok req.id) idx) [] := by
  suffices hs : ∀ (data : List ASVSCategory)
      (init : List (String × List String)),
      data.foldl
        (fun idx category => category.requirements.foldl
          (fun idx req => (reqTokens req).foldl
            (fun idx tok => insertToken idx tok req.id) idx) idx) init =
      (datasetRequirements data).foldl
        (fun idx req => (reqTokens req).foldl
          (fun idx tok => insertToken idx tok req.id) idx) init by
    exact hs data []
  intro data
  induction data with
  | nil => intro init; rfl
  | cons c t ih =>
    intro init
    show t.foldl _ (c.requirements.foldl _ init) = _
    rw [ih]
    show _ = (c.requirements ++ datasetRequirements t).foldl _ init
    rw [List.foldl_append]

theorem foldl_mapSet_get_notmem {α : Type} (key : α → String) (l : List α)
    (init : List (String × α)) (k : String) (h : ∀ x ∈ l, key x ≠ k) :
    mapGet (l.foldl (fun idx x => mapSet idx (key x) x) init) k =
      mapGet init k := by
  induction l generalizing init with
  | nil => rfl
  | cons x t ih =>
    show mapGet (t.foldl _ (mapSet init (key x) x)) k = _
    rw [ih _ (fun y hy => h y (List.mem_cons_of_mem x hy))]
    exact mapGet_set_other init (key x) k x
      (fun hk => h x (List.mem_cons_self x t) hk.symm)

theorem foldl_mapSet_get_mem {α : Type} (key : α → String) (l : List α)
    (a : α) (k : String) (hkey : key a = k) :
    ∀ (init : List (String × α)), a ∈ l → (l.map key).Nodup →
      mapGet (l.foldl (fun idx x => mapSet idx (key x) x) init) k = some a := by
  induction l with
  | nil => intro init ha _; cases ha
  | cons x t ih =>
    intro init ha hnd
    rw [List.map_cons] at hnd
    have hnd' := List.nodup_cons.mp hnd
    rcases List.mem_cons.mp ha with rfl | hat
    · have hnotin : ∀ y ∈ t, key y ≠ k := by
        intro y hy hkeq
        rw [← hkey] at hkeq
        exact hnd'.1 (hkeq ▸ List.mem_map_of_mem key hy)
      show mapGet (t.foldl _ (mapSet init (key a) a)) k = some a
      rw [foldl_mapSet_get_notmem key t _ k hnotin, ← hkey]
      exact mapGet_set_self init (key a) a
    · exact ih _ hat hnd'.2

theorem insertToken_fold_pres (toks : List String) (rid2 : String) :
    ∀ (idx : List (String × List String)) (tok rid : String),
      rid ∈ (mapGet idx tok).getD [] →
      rid ∈ (mapGet (toks.foldl (fun i t => insertToken i t rid2) idx) tok).getD [] := by
  induction toks with
  | nil => intro idx tok rid h; exact h
  | cons t0 ts ih =>
    intro idx tok rid h
    exact ih _ tok rid (insertToken_mem_mono idx tok rid t0 rid2 h)

theorem insertToken_fold_mem (toks : List String) (rid : String) :
    ∀ (idx : List (String × List String)) (tok : String), tok ∈ toks →
      rid ∈ (mapGet (toks.foldl (fun i t => insertToken i t rid) idx) tok).getD [] := by
  induction toks with
  | nil => intro idx tok h; cases h
  | cons t0 ts ih =>
    intro idx tok h
    rcases List.mem_cons.mp h with rfl | ht
    · exact insertToken_fold_pres ts rid _ tok rid
        (insertToken_mem_self idx tok rid)
    · exact ih _ tok ht

theorem search_reqs_pres (reqs : List ASVSRequirement) :
    ∀ (idx : List (String × List String)) (tok rid : String),
      rid ∈ (mapGet idx tok).getD [] →
      rid ∈ (mapGet (reqs.foldl
        (fun idx req => (reqTokens req).foldl
          (fun i t => insertToken i t req.id) idx) idx) tok).getD [] := by
  induction reqs with
  | nil => intro idx tok rid h; exact h
  | cons r t ih =>
    intro idx tok rid h
    exact ih _ tok rid (insertToken_fold_pres (reqTokens r) r.id idx tok rid h)

theorem search_reqs_mem (reqs : List ASVSRequirement) :
    ∀ (idx : List (String × List String)) (req : ASVSRequirement),
      req ∈ reqs → ∀ tok ∈ reqTokens req,
      req.id ∈ (mapGet (reqs.foldl
        (fun idx req => (reqTokens req).foldl
          (fun i t => insertToken i t req.id) idx) idx) tok).getD [] := by
  induction reqs with
  | nil => intro idx req h; cases h
  | cons r t ih =>
    intro idx req h tok htok
    rcases List.mem_cons.mp h with rfl | hrt
    · exact search_reqs_pres t _ tok req.id
        (insertToken_fold_mem (reqTokens req) req.id idx tok htok)
    · exact ih _ req hrt tok htok

/-- C8: over a dataset with unique requirement ids, the id index maps every
requirement id to exactly that requirement, and the search index contains
the requirement id under every one of its tokens (the source has no cache
cap, so the membership holds unconditionally). -/
theorem index_completeness (data : List ASVSCategory)
    (huniq : ((datasetRequirements data).map ASVSRequirement.id).Nodup) :
    ∀ cat ∈ data, ∀ req ∈ cat.requirements,
      (mapGet (buildRequirementIndex data) req.id).map Prod.fst = some req ∧
      ∀ tok ∈ reqTokens req,
        req.id ∈ (mapGet (buildSearchIndex data) tok).getD [] := by
  intro cat hcat req hreq
  constructor
  · rw [buildRequirementIndex_eq]
    have hnd : ((datasetEntries data).map (fun p => p.fst.id)).Nodup := by
      rw [datasetEntries_map_id]; exact huniq
    have h2 := foldl_mapSet_get_mem (fun p => p.fst.id) (datasetEntries data)
      (req, cat) req.id rfl [] (mem_datasetEntries data cat req hcat hreq) hnd
    rw [h2]
    rfl
  · intro tok htok
    rw [buildSearchIndex_eq]
    exact search_reqs_mem (datasetRequirements data) [] req
      (mem_datasetRequirements data cat req hcat hreq) tok htok

/-- C8 witness: the theorem applied to the demo dataset, at requirement
"2.1.1" and its description token "passwords". -/
theorem index_completeness_witness :
    (mapGet (buildRequirementIndex [demoCat]) "2.1.1").map Prod.fst =
      some demoReq1 ∧
    "2.1.1" ∈ (mapGet (buildSearchIndex [demoCat]) "passwords").getD [] := by
  have h := index_completeness [demoCat] (by decide) demoCat (by decide)
    demoReq1 (by decide)
  exact ⟨h.1, h.2 "passwords" (by decide)⟩

/-! ## Gap-analysis lemmas -/

theorem insertLe_length {α : Type} (le : α → α → Bool) (a : α) (l : List α) :
    (insertLe le a l).length = l.length + 1 := by
  induction l with
  | nil => rfl
  | cons b t ih =>
    unfold insertLe
    by_cases h : le a b <;> simp [h, ih]

theorem sortLe_length {α : Type} (le : α → α → Bool) (l : List α) :
    (sortLe le l).length = l.length := by
  induction l with
  | nil => rfl
  | cons a t ih =>
    show (insertLe le a (sortLe le t)).length = t.length + 1
    rw [insertLe_length, ih]

theorem gapStep_coverage_other (imp : List String) (req : ASVSRequirement)
    (s : GapState) (f' f : String) (h : f' ≠ f) :
    mapGet (gapStep imp req s f').coverage f = mapGet s.coverage f := by
  unfold gapStep
  cases hc : mapGet req.compliance f' with
  | none => rfl
  | some refs =>
    by_cases hl : refs.length > 0
    · simp only [if_pos hl]
      by_cases hi : req.id ∈ imp
      · simp only [if_pos hi]
        exact mapGet_set_other s.coverage f' f _ (Ne.symm h)
      · simp only [if_neg hi]
        exact mapGet_set_other s.coverage f' f _ (Ne.symm h)
    · simp only [if_neg hl]

theorem gapStep_gaps_other (imp : List String) (req : ASVSRequirement)
    (s : GapState) (f' f : String) (h : f' ≠ f) :
    mapGet (gapStep imp req s f').gaps f = mapGet s.gaps f := by
  unfold gapStep
  cases hc : mapGet req.compliance f' with
  | none => rfl
  | some refs =>
    by_cases hl : refs.length > 0
    · simp only [if_pos hl]
      by_cases hi : req.id ∈ imp
      · simp only [if_pos hi]
      · simp only [if_neg hi]
        exact mapGet_set_other s.gaps f' f _ (Ne.symm h)
    · simp only [if_neg hl]

theorem gapStep_coverage_self (imp : List String) (req : ASVSRequirement)
    (s : GapState) (f : String) (cov : CoverageCounters)
    (hc : mapGet s.coverage f = some cov) :
    mapGet (gapStep imp req s f).coverage f =
      some (if hasFrameworkRefs req f then
        (if req.id ∈ imp then
          ⟨cov.total + 1, cov.implemented + 1, cov.missing⟩
         else ⟨cov.total + 1, cov.implemented, cov.missing + 1⟩)
      else cov) := by
  unfold gapStep hasFrameworkRefs
  cases hcc : mapGet req.compliance f with
  | none => simp [hc]
  | some refs =>
    by_cases hl : refs.length > 0
    · by_cases hi : req.id ∈ imp
      · simp [hl, hi, hc, mapGet_set_self]
      · simp [hl, hi, hc, mapGet_set_self]
    · simp [hl, hc]

theorem gapStep_gaps_self (imp : List String) (req : ASVSRequirement)
    (s : GapState) (f : String) (gl : List GapEntry)
    (hg : mapGet s.gaps f = some gl) :
    (mapGet (gapStep imp req s f).gaps f).map List.length =
      some (gl.length +
        (if hasFrameworkRefs req f && !decide (req.id ∈ imp) then 1 else 0)) := by
  unfold gapStep hasFrameworkRefs
  cases hcc : mapGet req.compliance f with
  | none => simp [hg]
  | some refs =>
    by_cases hl : refs.length > 0
    · by_cases hi : req.id ∈ imp
      · simp [hl, hi, hg]
      · simp [hl, hi, hg, mapGet_set_self]
    · simp [hl, hg]

theorem foldGapStep_coverage_notmem (imp : List String)
    (req : ASVSRequirement) (fws : List String) (f : String) (h : f ∉ fws) :
    ∀ s : GapState,
      mapGet (fws.foldl (gapStep imp req) s).coverage f =
        mapGet s.coverage f := by
  induction fws with
  | nil => intro s; rfl
  | cons f0 t ih =>
    intro s
    show mapGet ((t.foldl _ (gapStep imp req s f0))).coverage f = _
    rw [ih (fun hm => h (List.mem_cons_of_mem f0 hm)) _]
    exact gapStep_coverage_other imp req s f0 f
      (fun he => h (he ▸ List.mem_cons_self f0 t))

theorem foldGapStep_gaps_notmem (imp : List String) (req : ASVSRequirement)
    (fws : List String) (f : String) (h : f ∉ fws) :
    ∀ s : GapState,
      mapGet (fws.foldl (gapStep imp req) s).gaps f = mapGet s.gaps f := by
  induction fws with
  | nil => intro s; rfl
  | cons f0 t ih =>
    intro s
    show mapGet ((t.foldl _ (gapStep imp req s f0))).gaps f = _
    rw [ih (fun hm => h (List.mem_cons_of_mem f0 hm)) _]
    exact gapStep_gaps_other imp req s f0 f
      (fun he => h (he ▸ List.mem_cons_self f0 t))

theorem foldGapStep_coverage_mem (imp : List String) (req : ASVSRequirement)
    (fws : List String) (f : String) :
    f ∈ fws → fws.Nodup →
    ∀ (s : GapState) (cov : CoverageCounters),
      mapGet s.coverage f = some cov →
      mapGet (fws.foldl (gapStep imp req) s).coverage f =
        some (if hasFrameworkRefs req f then
          (if req.id ∈ imp then
            ⟨cov.total + 1, cov.implemented + 1, cov.missing⟩
           else ⟨cov.total + 1, cov.implemented, cov.missing + 1⟩)
        else cov) := by
  induction fws with
  | nil => intro hmem; cases hmem
  | cons f0 t ih =>
    intro hmem hnd s cov hc
    rcases List.mem_cons.mp hmem with rfl | hft
    · have hf_notin : f ∉ t := (List.nodup_cons.mp hnd).1
      show mapGet ((t.foldl _ (gapStep imp req s f))).coverage f = _
      rw [foldGapStep_coverage_notmem imp req t f hf_notin _]
      exact gapStep_coverage_self imp req s f cov hc
    · by_cases he : f0 = f
      · subst he
        exact absurd hft (List.nodup_cons.mp hnd).1
      · show mapGet ((t.foldl _ (gapStep imp req s f0))).coverage f = _
        exact ih hft (List.nodup_cons.mp hnd).2 _ cov
          (by rw [gapStep_coverage_other imp req s f0 f he]; exact hc)

theorem foldGapStep_gaps_mem (imp : List String) (req : ASVSRequirement)
    (fws : List String) (f : String) :
    f ∈ fws → fws.Nodup →
    ∀ (s : GapState) (gl : List GapEntry),
      mapGet s.gaps f = some gl →
      (mapGet (fws.foldl (gapStep imp req) s).gaps f).map List.length =
        some (gl.length +
          (if hasFrameworkRefs req f && !decide (req.id ∈ imp) then 1 else 0)) := by
  induction fws with
  | nil => intro hmem; cases hmem
  | cons f0 t ih =>
    intro hmem hnd s gl hg
    rcases List.mem_cons.mp hmem with rfl | hft
    · have hf_notin : f ∉ t := (List.nodup_cons.mp hnd).1
      show (mapGet ((t.foldl _ (gapStep imp req s f))).gaps f).map List.length = _
      rw [foldGapStep_gaps_notmem imp req t f hf_notin _]
      exact gapStep_gaps_self imp req s f gl hg
    · by_cases he : f0 = f
      · subst he
        exact absurd hft (List.nodup_cons.mp hnd).1
      · show (mapGet ((t.foldl _ (gapStep imp req s f0))).gaps f).map List.length = _
        exact ih hft (List.nodup_cons.mp hnd).2 _ gl
          (by rw [gapStep_gaps_other imp req s f0 f he]; exact hg)

theorem processReqs_coverage (fws : List String) (target : Int)
    (imp : List String) (f : String) (hmem : f ∈ fws) (hnd : fws.Nodup) :
    ∀ (reqs : List ASVSRequirement) (s : GapState) (cov : CoverageCounters),
      mapGet s.coverage f = some cov →
      mapGet ((reqs.foldl
        (fun s req => if target ∈ req.level then
          fws.foldl (gapStep imp req) s else s) s)).coverage f =
        some ⟨cov.total + reqs.countP
                (fun r => decide (target ∈ r.level) && hasFrameworkRefs r f),
              cov.implemented + reqs.countP
                (fun r => decide (target ∈ r.level) && hasFrameworkRefs r f &&
                  decide (r.id ∈ imp)),
              cov.missing + reqs.countP
                (fun r => decide (target ∈ r.level) && hasFrameworkRefs r f &&
                  !decide (r.id ∈ imp))⟩ := by
  intro reqs
  induction reqs with
  | nil =>
    intro s cov hc
    simpa using hc
  | cons r t ih =>
    intro s cov hc
    by_cases hr : target ∈ r.level
    · have hstep := foldGapStep_coverage_mem imp r fws f hmem hnd s cov hc
      by_cases hrefs : hasFrameworkRefs r f = true
      · by_cases himp : r.id ∈ imp
        · have h2 := ih (fws.foldl (gapStep imp r) s)
            ⟨cov.total + 1, cov.implemented + 1, cov.missing⟩
            (by rw [hstep]; simp [hrefs, himp])
          show mapGet ((t.foldl _ (if target ∈ r.level then _ else s))).coverage f = _
          rw [if_pos hr]
          rw [h2]
          simp [List.countP_cons, hr, hrefs, himp]
          omega
        · have h2 := ih (fws.foldl (gapStep imp r) s)
            ⟨cov.total + 1, cov.implemented, cov.missing + 1⟩
            (by rw [hstep]; simp [hrefs, himp])
          show mapGet ((t.foldl _ (if target ∈ r.level then _ else s))).coverage f = _
          rw [if_pos hr]
          rw [h2]
          simp [List.countP_cons, hr, hrefs, himp]
          omega
      · have h2 := ih (fws.foldl (gapStep imp r) s) cov
          (by rw [hstep]; simp [hrefs])
        show mapGet ((t.foldl _ (if target ∈ r.level then _ else s))).coverage f = _
        rw [if_pos hr]
        rw [h2]
        simp [List.countP_cons, hr, hrefs]
    · have h2 := ih s cov hc
      show mapGet ((t.foldl _ (if target ∈ r.level then _ else s))).coverage f = _
      rw [if_neg hr]
      rw [h2]
      simp [List.countP_cons, hr]

theorem processReqs_gaps (fws : List String) (target : Int)
    (imp : List String) (f : String) (hmem : f ∈ fws) (hnd : fws.Nodup) :
    ∀ (reqs : List ASVSRequirement) (s : GapState) (gl : List GapEntry),
      mapGet s.gaps f = some gl →
      ∃ gl', mapGet ((reqs.foldl
          (fun s req => if target ∈ req.level then
            fws.foldl (gapStep imp req) s else s) s)).gaps f = some gl' ∧
        gl'.length = gl.length + reqs.countP
          (fun r => decide (target ∈ r.level) && hasFrameworkRefs r f &&
            !decide (r.id ∈ imp)) := by
  intro reqs
  induction reqs with
  | nil =>
    intro s gl hg
    exact ⟨gl, by simpa using hg, by simp⟩
  | cons r t ih =>
    intro s gl hg
    by_cases hr : target ∈ r.level
    · have hstep := foldGapStep_gaps_mem imp r fws f hmem hnd s gl hg
      cases hx : mapGet (fws.foldl (gapStep imp r) s).gaps f with
      | none => rw [hx] at hstep; simp at hstep
      | some gl2 =>
        rw [hx] at hstep
        have hlen2 : gl2.length = gl.length +
            (if hasFrameworkRefs r f && !decide (r.id ∈ imp) then 1 else 0) := by
          simpa using hstep
        rcases ih (fws.foldl (gapStep imp r) s) gl2 hx with ⟨gl', hget, hlen⟩
        refine ⟨gl', ?_, ?_⟩
        · show mapGet ((t.foldl _ (if target ∈ r.level then _ else s))).gaps f
            = some gl'
          rw [if_pos hr]
          exact hget
        · rw [hlen, hlen2]
          simp [List.countP_cons, hr]
          by_cases hrefs : hasFrameworkRefs r f = true <;>
            by_cases himp : r.id ∈ imp <;> simp [hrefs, himp] <;> try omega
    · rcases ih s gl hg with ⟨gl', hget, hlen⟩
      refine ⟨gl', ?_, ?_⟩
      · show mapGet ((t.foldl _ (if target ∈ r.level then _ else s))).gaps f
          = some gl'
        rw [if_neg hr]
        exact hget
      · rw [hlen]
        simp [List.countP_cons, hr]

theorem initFold_notmem (t : List String) (f : String) (h : f ∉ t) :
    ∀ s : GapState,
      mapGet ((t.foldl (fun s framework =>
        { gaps := mapSet s.gaps framework []
          coverage := mapSet s.coverage framework ⟨0, 0, 0⟩ }) s)).coverage f =
        mapGet s.coverage f ∧
      mapGet ((t.foldl (fun s framework =>
        { gaps := mapSet s.gaps framework []
          coverage := mapSet s.coverage framework ⟨0, 0, 0⟩ }) s)).gaps f =
        mapGet s.gaps f := by
  induction t with
  | nil => intro s; exact ⟨rfl, rfl⟩
  | cons f0 t ih =>
    intro s
    have hne : f ≠ f0 := fun he => h (he ▸ List.mem_cons_self f0 t)
    have ht := ih (fun hm => h (List.mem_cons_of_mem f0 hm))
      ⟨mapSet s.gaps f0 [], mapSet s.coverage f0 ⟨0, 0, 0⟩⟩
    refine ⟨?_, ?_⟩
    · exact ht.1.trans (mapGet_set_other s.coverage f0 f _ hne)
    · exact ht.2.trans (mapGet_set_other s.gaps f0 f _ hne)

theorem initFold_mem (fws : List String) (f : String) :
    f ∈ fws →
    ∀ s : GapState,
      mapGet ((fws.foldl (fun s framework =>
        { gaps := mapSet s.gaps framework []
          coverage := mapSet s.coverage framework ⟨0, 0, 0⟩ }) s)).coverage f =
        some ⟨0, 0, 0⟩ ∧
      mapGet ((fws.foldl (fun s framework =>
        { gaps := mapSet s.gaps framework []
          coverage := mapSet s.coverage framework ⟨0, 0, 0⟩ }) s)).gaps f =
        some [] := by
  induction fws with
  | nil => intro hmem; cases hmem
  | cons f0 t ih =>
    intro hmem s
    by_cases hft : f ∈ t
    · exact ih hft _
    · have hf0 : f0 = f := by
        rcases List.mem_cons.mp hmem with h | h
        · exact h.symm
        · exact absurd h hft
      subst hf0
      have ht := initFold_notmem t f0 hft
        ⟨mapSet s.gaps f0 [], mapSet s.coverage f0 ⟨0, 0, 0⟩⟩
      refine ⟨?_, ?_⟩
      · exact ht.1.trans (mapGet_set_self s.coverage f0 ⟨0, 0, 0⟩)
      · exact ht.2.trans (mapGet_set_self s.gaps f0 [])

theorem sortFold_notmem (t : List String) (f : String) (h : f ∉ t) :
    ∀ g : List (String × List GapEntry),
      mapGet ((t.foldl (fun g framework =>
        mapSet g framework
          (sortLe (fun a b => priorityOrder a.priority ≤ priorityOrder b.priority)
            ((mapGet g framework).getD []))) g)) f = mapGet g f := by
  induction t with
  | nil => intro g; rfl
  | cons f0 t ih =>
    intro g
    have hne : f ≠ f0 := fun he => h (he ▸ List.mem_cons_self f0 t)
    exact (ih (fun hm => h (List.mem_cons_of_mem f0 hm)) _).trans
      (mapGet_set_other g f0 f _ hne)

theorem sortFold_mem (fws : List String) (f : String) :
    f ∈ fws → fws.Nodup →
    ∀ (g : List (String × List GapEntry)) (gl : List GapEntry),
      mapGet g f = some gl →
      (mapGet ((fws.foldl (fun g framework =>
        mapSet g framework
          (sortLe (fun a b => priorityOrder a.priority ≤ priorityOrder b.priority)
            ((mapGet g framework).getD []))) g)) f).map List.length =
        some gl.length := by
  induction fws with
  | nil => intro hmem; cases hmem
  | cons f0 t ih =>
    intro hmem hnd g gl hg
    rcases List.mem_cons.mp hmem with rfl | hft
    · have hf_notin : f ∉ t := (List.nodup_cons.mp hnd).1
      show (mapGet ((t.foldl _ (mapSet g f _))) f).map List.length = _
      rw [sortFold_notmem t f hf_notin _]
      rw [mapGet_set_self]
      simp [hg, sortLe_length]
    · by_cases he : f0 = f
      · subst he
        exact absurd hft (List.nodup_cons.mp hnd).1
      · refine ih hft (List.nodup_cons.mp hnd).2 _ gl ?_
        exact (mapGet_set_other g f0 f _ (Ne.symm he)).trans hg

theorem find?_coverage_summary (cov : List (String × CoverageCounters))
    (f : String) :
    (((cov.map (fun p =>
        ({ framework := (mapGet FRAMEWORK_MAP p.fst).getD p.fst,
           framework_key := p.fst,
           total_requirements := p.snd.total,
           implemented := p.snd.implemented,
           missing := p.snd.missing,
           coverage_percentage := if 0 < p.snd.total then
               jsRound ((p.snd.implemented : ℚ) / (p.snd.total : ℚ) * 100)
             else 0 } : CoverageEntry))).find?
        (fun e => e.framework_key = f)).map
      (fun e => (e.total_requirements, e.implemented, e.missing,
        e.coverage_percentage))) =
      (mapGet cov f).map (fun c => (c.total, c.implemented, c.missing,
        if 0 < c.total then jsRound ((c.implemented : ℚ) / (c.total : ℚ) * 100)
        else 0)) := by
  induction cov with
  | nil => rfl
  | cons p t ih =>
    rcases p with ⟨pf, pc⟩
    by_cases hp : pf = f
    · subst hp
      simp [mapGet, List.find?]
    · simp only [List.map_cons]
      rw [List.find?_cons_of_neg _ (by simpa using hp)]
      show _ = Option.map _ (if pf = f then some pc else mapGet t f)
      rw [if_neg hp]
      exact ih

theorem foldl_over_categories {β : Type} (g : β → ASVSRequirement → β) :
    ∀ (data : List ASVSCategory) (init : β),
      data.foldl (fun acc category => category.requirements.foldl g acc) init =
        (datasetRequirements data).foldl g init := by
  intro data
  induction data with
  | nil => intro init; rfl
  | cons c t ih =>
    intro init
    show t.foldl _ (c.requirements.foldl g init) = _
    rw [ih]
    show _ = (c.requirements ++ datasetRequirements t).foldl g init
    rw [List.foldl_append]

/-- C6: in the gap analysis, for every requested framework `f` (frameworks
pairwise distinct), the reported entry has `total` counting the requirements
at the target level with non-empty references for `f`, `implemented`
counting those among them whose id is in the implemented set, and
`coverage_percentage = round(implemented/total × 100)` (0 when `total` is
0); the gap list for `f` holds exactly the missing ones; and the operation
returns this payload as a success result. -/
theorem gapAnalysis_coverage_math (data : List ASVSCategory)
    (frameworks : List String) (targetLevel : Int) (implemented : List String)
    (f : String) (hnd : frameworks.Nodup) (hmem : f ∈ frameworks) :
    ((complianceGapAnalysis (mkServer data) frameworks targetLevel
        (some implemented)).coverage_summary.find?
        (fun e => e.framework_key = f)).map
      (fun e => (e.total_requirements, e.implemented, e.missing,
        e.coverage_percentage)) =
      some ((datasetRequirements data).countP
          (fun r => decide (targetLevel ∈ r.level) && hasFrameworkRefs r f),
        (datasetRequirements data).countP
          (fun r => decide (targetLevel ∈ r.level) && hasFrameworkRefs r f &&
            decide (r.id ∈ implemented)),
        (datasetRequirements data).countP
          (fun r => decide (targetLevel ∈ r.level) && hasFrameworkRefs r f &&
            !decide (r.id ∈ implemented)),
        if 0 < (datasetRequirements data).countP
            (fun r => decide (targetLevel ∈ r.level) && hasFrameworkRefs r f)
        then
          jsRound ((((datasetRequirements data).countP
              (fun r => decide (targetLevel ∈ r.level) && hasFrameworkRefs r f &&
                decide (r.id ∈ implemented))) : ℚ) /
            (((datasetRequirements data).countP
              (fun r => decide (targetLevel ∈ r.level) && hasFrameworkRefs r f)) : ℚ)
            * 100)
        else 0) ∧
    ((mapGet (complianceGapAnalysis (mkServer data) frameworks targetLevel
        (some implemented)).gaps f).map List.length) =
      some ((datasetRequirements data).countP
        (fun r => decide (targetLevel ∈ r.level) && hasFrameworkRefs r f &&
          !decide (r.id ∈ implemented))) ∧
    getComplianceGapAnalysis (mkServer data) frameworks targetLevel
        (some implemented) =
      Except.ok (complianceGapAnalysis (mkServer data) frameworks targetLevel
        (some implemented)) := by
  have hinit := initFold_mem frameworks f hmem ⟨[], []⟩
  have hproc := processReqs_coverage frameworks targetLevel implemented f hmem
    hnd (datasetRequirements data)
    (frameworks.foldl (fun s framework =>
      { gaps := mapSet s.gaps framework []
        coverage := mapSet s.coverage framework ⟨0, 0, 0⟩ }) ⟨[], []⟩)
    ⟨0, 0, 0⟩ hinit.1
  obtain ⟨gl', hget', hlen'⟩ := processReqs_gaps frameworks targetLevel
    implemented f hmem hnd (datasetRequirements data)
    (frameworks.foldl (fun s framework =>
      { gaps := mapSet s.gaps framework []
        coverage := mapSet s.coverage framework ⟨0, 0, 0⟩ }) ⟨[], []⟩)
    [] hinit.2
  refine ⟨?_, ?_, rfl⟩
  · simp only [complianceGapAnalysis, Option.getD_some]
    rw [find?_coverage_summary]
    rw [foldl_over_categories
      (fun s req => if targetLevel ∈ req.level then
        frameworks.foldl (gapStep implemented req) s else s)]
    rw [show (mkServer data).asvsData = data from rfl]
    rw [hproc]
    simp
  · simp only [complianceGapAnalysis, Option.getD_some]
    rw [foldl_over_categories
      (fun s req => if targetLevel ∈ req.level then
        frameworks.foldl (gapStep implemented req) s else s)]
    rw [show (mkServer data).asvsData = data from rfl]
    rw [sortFold_mem frameworks f hmem hnd _ gl' hget']
    rw [hlen']
    simp

/-- C6 witness: the theorem applied to the synthetic dataset of 10 level-2
requirements, 4 mapped to framework "x" and 2 of those implemented:
coverage is (total 4, implemented 2, missing 2, percentage 50) and the "x"
gap list has length 2. -/
theorem gapAnalysis_coverage_math_witness :
    ((complianceGapAnalysis (mkServer synthData) ["x"] 2
        (some ["S1", "S2"])).coverage_summary.find?
        (fun e => e.framework_key = "x")).map
      (fun e => (e.total_requirements, e.implemented, e.missing,
        e.coverage_percentage)) = some (4, 2, 2, 50) ∧
    ((mapGet (complianceGapAnalysis (mkServer synthData) ["x"] 2
        (some ["S1", "S2"])).gaps "x").map List.length) = some 2 := by
  have h := gapAnalysis_coverage_math synthData ["x"] 2 ["S1", "S2"] "x"
    (by decide) (by decide)
  refine ⟨?_, ?_⟩
  · rw [h.1]
    simp [datasetRequirements, synthData, synthReq, hasFrameworkRefs,
      mapGet, List.countP_cons, jsRound]
    norm_num
  · rw [h.2.1]
    simp [datasetRequirements, synthData, synthReq, hasFrameworkRefs,
      mapGet, List.countP_cons]
